import Mathlib

/-!
Shallow embedding of `src/gematria.py` (13alvone/Gematria).

Strings are modelled as lists of character codepoints (`List Nat`), matching
Python's view of a `str` as a sequence of codepoints.  The embedding covers the
ASCII plane, the domain of this tool: the scoring tables are fixed 26-entry
Latin-letter tables and the specification's non-goals exclude non-Latin
alphabets, so `str.isalpha`, `str.lower` and `str.split` are modelled by their
restrictions to ASCII codepoints.

The SQLite store, the logger and the file extractor are modelled explicitly:
the store as a record of whether the `words` table exists plus its rows, the
logger as an appended list of log entries, and the environment's possible
storage/extraction faults as explicit outcome parameters.  A Python exception
that escapes a function is modelled by a `Bool` "raised" component (or an
`Except` result), since an uncaught exception terminates the interpreter.
-/

set_option linter.unusedVariables false

/-- Codepoint of a character, Python `ord`. -/
def chr (c : Char) : Nat := c.toNat

/-- A Python string literal as its list of codepoints. -/
def str (s : String) : List Nat := s.data.map Char.toNat

/-- Models Python `str.isalpha` on one codepoint, restricted to the ASCII
plane: the ASCII letters are `a`-`z` (97-122) and `A`-`Z` (65-90). -/
def pyIsAlpha (c : Nat) : Bool :=
  decide ((97 ≤ c ∧ c ≤ 122) ∨ (65 ≤ c ∧ c ≤ 90))

/-- Models Python `str.lower` on one codepoint, restricted to the ASCII plane:
uppercase letters move down by 32, everything else is unchanged. -/
def pyLowerChar (c : Nat) : Nat :=
  if 65 ≤ c ∧ c ≤ 90 then c + 32 else c

/-- Models Python `str.lower`, applied codepoint by codepoint. -/
def pyLower (s : List Nat) : List Nat := s.map pyLowerChar

/-- `calculate_gematria` (src/gematria.py:34-38):
`sum(ord(char) - 96 for char in word.lower() if char.isalpha())`. -/
def calculate_gematria (word : List Nat) : Int :=
  (((pyLower word).filter pyIsAlpha).map (fun (c : Nat) => (c : Int) - 96)).sum

/-- The `hebrew_values` dict of `calculate_hebrew_gematria`
(src/gematria.py:44-49), as an association list in source order. -/
def hebrew_values : List (Nat × Int) :=
  [(chr 'a', 1), (chr 'b', 2), (chr 'c', 3), (chr 'd', 4), (chr 'e', 5),
   (chr 'f', 6), (chr 'g', 7), (chr 'h', 8), (chr 'i', 9),
   (chr 'k', 10), (chr 'l', 20), (chr 'm', 30), (chr 'n', 40), (chr 'o', 50),
   (chr 'p', 60), (chr 'q', 70), (chr 'r', 80),
   (chr 's', 90), (chr 't', 100), (chr 'u', 200), (chr 'x', 300),
   (chr 'y', 400), (chr 'z', 500), (chr 'j', 600),
   (chr 'v', 700), (chr 'w', 900)]

/-- `calculate_hebrew_gematria` (src/gematria.py:40-50):
`sum(hebrew_values[char] for char in word.lower() if char in hebrew_values)`. -/
def calculate_hebrew_gematria (word : List Nat) : Int :=
  ((pyLower word).filterMap (fun c => hebrew_values.lookup c)).sum

/-- The `english_values` dict of `calculate_english_gematria`
(src/gematria.py:56-60), as an association list in source order. -/
def english_values : List (Nat × Int) :=
  [(chr 'a', 6), (chr 'b', 12), (chr 'c', 18), (chr 'd', 24), (chr 'e', 30),
   (chr 'f', 36), (chr 'g', 42), (chr 'h', 48), (chr 'i', 54),
   (chr 'j', 60), (chr 'k', 66), (chr 'l', 72), (chr 'm', 78), (chr 'n', 84),
   (chr 'o', 90), (chr 'p', 96), (chr 'q', 102), (chr 'r', 108),
   (chr 's', 114), (chr 't', 120), (chr 'u', 126), (chr 'v', 132),
   (chr 'w', 138), (chr 'x', 144), (chr 'y', 150), (chr 'z', 156)]

/-- `calculate_english_gematria` (src/gematria.py:52-61):
`sum(english_values[char] for char in word.lower() if char in english_values)`. -/
def calculate_english_gematria (word : List Nat) : Int :=
  ((pyLower word).filterMap (fun c => english_values.lookup c)).sum

/-- The specification's description of the simple score, for refinement
against `calculate_gematria`: for each character that is an ASCII letter add
`(lowercase codepoint) - (codepoint of a) + 1`; all others contribute 0. -/
def simpleScoreSpec (word : List Nat) : Int :=
  (word.map (fun (c : Nat) => if pyIsAlpha c then (pyLowerChar c : Int) - 97 + 1 else 0)).sum

theorem pyIsAlpha_pyLowerChar (c : Nat) :
    pyIsAlpha (pyLowerChar c) = pyIsAlpha c := by
  unfold pyIsAlpha pyLowerChar
  split <;> (apply decide_eq_decide.mpr; omega)

theorem calculate_gematria_eq_spec (w : List Nat) :
    calculate_gematria w = simpleScoreSpec w := by
  induction w with
  | nil => rfl
  | cons c cs ih =>
    unfold calculate_gematria simpleScoreSpec pyLower at ih ⊢
    simp only [List.map_cons, List.filter_cons, pyIsAlpha_pyLowerChar]
    by_cases h : pyIsAlpha c = true
    · rw [if_pos h, if_pos h, List.map_cons, List.sum_cons, List.sum_cons, ih]
      ring
    · rw [if_neg h, if_neg h, List.sum_cons, ih]
      ring

/-- C1: `calculate_gematria` returns, for every input string, the sum over
each character that is an ASCII letter of
`(lowercase codepoint) - (codepoint of a) + 1`, with every other character
contributing nothing; `calculate_gematria "abc" = 6`,
`calculate_gematria "z" = 26`, and a word of only non-alphabetic characters
scores 0. -/
theorem c1_simple_score_correct :
    (∀ w : List Nat, calculate_gematria w = simpleScoreSpec w) ∧
    calculate_gematria (str "abc") = 6 ∧
    calculate_gematria (str "z") = 26 ∧
    (∀ w : List Nat, (∀ c ∈ w, pyIsAlpha c = false) → calculate_gematria w = 0) := by
  refine ⟨calculate_gematria_eq_spec, by decide, by decide, ?_⟩
  intro w hw
  rw [calculate_gematria_eq_spec]
  unfold simpleScoreSpec
  apply List.sum_eq_zero
  intro x hx
  simp only [List.mem_map] at hx
  obtain ⟨c, hc, rfl⟩ := hx
  rw [hw c hc]
  simp

/-- Witness for C1 at a concrete non-alphabetic word. -/
theorem c1_simple_score_correct_witness :
    calculate_gematria (str "123!") = 0 :=
  c1_simple_score_correct.2.2.2 (str "123!") (by decide)

/-- C2: `calculate_hebrew_gematria` sums the fixed `hebrew_values` table over
the lowercased letters of the word; the table covers all 26 lowercase Latin
letters (codepoints 97-122), `calculate_hebrew_gematria "a" = 1`,
`"j" = 600`, `"w" = 900`, and any character whose lowercase form is outside
the table contributes 0. -/
theorem c2_hebrew_score_correct :
    (∀ c : Nat, c < 123 → 97 ≤ c → (hebrew_values.lookup c).isSome = true) ∧
    calculate_hebrew_gematria (str "a") = 1 ∧
    calculate_hebrew_gematria (str "j") = 600 ∧
    calculate_hebrew_gematria (str "w") = 900 ∧
    (∀ (c : Nat) (w : List Nat), hebrew_values.lookup (pyLowerChar c) = none →
      calculate_hebrew_gematria (c :: w) = calculate_hebrew_gematria w) := by
  refine ⟨by decide, by decide, by decide, by decide, ?_⟩
  intro c w hc
  unfold calculate_hebrew_gematria pyLower
  simp [List.filterMap_cons, hc]

/-- Witness for C2: the table covers the letter `a`, and `!` (codepoint 33)
contributes nothing. -/
theorem c2_hebrew_score_correct_witness :
    (hebrew_values.lookup 97).isSome = true ∧
    calculate_hebrew_gematria (33 :: str "a") = calculate_hebrew_gematria (str "a") :=
  ⟨c2_hebrew_score_correct.1 97 (by decide) (by decide),
   c2_hebrew_score_correct.2.2.2.2 33 (str "a") (by decide)⟩

/-- C6: `calculate_english_gematria "a" = 6`,
`calculate_english_gematria "z" = 156`, and for every single Latin letter
(every codepoint with `pyIsAlpha`, all of which lie below 123),
`calculate_english_gematria` of that one-letter word is six times
`calculate_gematria` of it. -/
theorem c6_english_six_times_simple :
    calculate_english_gematria (str "a") = 6 ∧
    calculate_english_gematria (str "z") = 156 ∧
    (∀ c : Nat, c < 123 → pyIsAlpha c = true →
      calculate_english_gematria [c] = 6 * calculate_gematria [c]) ∧
    (∀ c : Nat, pyIsAlpha c = true → c < 123) := by
  refine ⟨by decide, by decide, by decide, ?_⟩
  intro c hc
  unfold pyIsAlpha at hc
  simp only [decide_eq_true_eq] at hc
  omega

/-- Witness for C6 at the concrete letter `B` (codepoint 66). -/
theorem c6_english_six_times_simple_witness :
    calculate_english_gematria [66] = 6 * calculate_gematria [66] :=
  c6_english_six_times_simple.2.2.1 66 (by decide) (by decide)

/-- C10: each scorer is a monoid homomorphism from strings under
concatenation to integers under addition: it maps `++` to `+` and the empty
string to 0, for `calculate_gematria`, `calculate_hebrew_gematria` and
`calculate_english_gematria` alike. -/
theorem c10_scores_additive :
    (∀ u v : List Nat,
      calculate_gematria (u ++ v) = calculate_gematria u + calculate_gematria v) ∧
    calculate_gematria [] = 0 ∧
    (∀ u v : List Nat,
      calculate_hebrew_gematria (u ++ v)
        = calculate_hebrew_gematria u + calculate_hebrew_gematria v) ∧
    calculate_hebrew_gematria [] = 0 ∧
    (∀ u v : List Nat,
      calculate_english_gematria (u ++ v)
        = calculate_english_gematria u + calculate_english_gematria v) ∧
    calculate_english_gematria [] = 0 := by
  refine ⟨?_, rfl, ?_, rfl, ?_, rfl⟩ <;> intro u v <;>
    simp [calculate_gematria, calculate_hebrew_gematria, calculate_english_gematria,
      pyLower, List.filter_append, List.filterMap_append]

/-- Witness for C10 at concrete strings. -/
theorem c10_scores_additive_witness :
    calculate_gematria (str "ab" ++ str "c")
      = calculate_gematria (str "ab") + calculate_gematria (str "c") :=
  c10_scores_additive.1 (str "ab") (str "c")

/-- Models Python `str` whitespace for `str.split`, restricted to the ASCII
plane: tab, newline, vertical tab, form feed, carriage return, the
separator codepoints 28-31, and space. -/
def pyIsSpace (c : Nat) : Bool :=
  decide (c = 9 ∨ c = 10 ∨ c = 11 ∨ c = 12 ∨ c = 13 ∨
          c = 28 ∨ c = 29 ∨ c = 30 ∨ c = 31 ∨ c = 32)

/-- Worker for `pySplit`: `acc` holds the current token's codepoints in
reverse order. -/
def pySplitAux : List Nat → List Nat → List (List Nat)
  | [], acc => if acc.isEmpty then [] else [acc.reverse]
  | c :: cs, acc =>
    if pyIsSpace c then
      if acc.isEmpty then pySplitAux cs [] else acc.reverse :: pySplitAux cs []
    else pySplitAux cs (c :: acc)

/-- Models Python `str.split()` with no argument: split on runs of
whitespace, never producing empty tokens. -/
def pySplit (s : List Nat) : List (List Nat) := pySplitAux s []

/-- Models Python `str.isalpha` on a whole string: nonempty and every
codepoint alphabetic. -/
def pyStrIsAlpha (s : List Nat) : Bool := !s.isEmpty && s.all pyIsAlpha

/-- The token-set construction of `process_file` (src/gematria.py:102):
`set(word for word in text.split() if word.isalpha())`, with the set
represented as a duplicate-free list. -/
def tokenize (text : List Nat) : List (List Nat) :=
  ((pySplit text).filter pyStrIsAlpha).dedup

/-- One row of the `words` table (src/gematria.py:69-74). -/
structure WordRecord where
  word : List Nat
  simple_gematria : Int
  hebrew_gematria : Int
  english_gematria : Int
deriving DecidableEq

/-- The persistent state of `gematria.db`: whether the `words` table exists,
and its rows in insertion order. -/
structure DB where
  tableExists : Bool
  rows : List WordRecord
deriving DecidableEq

/-- One record emitted to the logger. -/
inductive LogEntry where
  /-- `logger.warning` for an unsupported file extension (line 28). -/
  | unsupportedFormat
  /-- `logger.error` when extraction raises (line 30). -/
  | extractionError
  /-- `logger.error` when schema creation raises inside the try (line 77). -/
  | dbCreateError
  /-- `logger.error` when a word's insert raises inside the try (line 93). -/
  | insertError (word : List Nat)
  /-- `logger.info` for a processed word (line 108). -/
  | processed (word : List Nat) (simple hebrew english : Int)
deriving DecidableEq

/-- The observable program state: the database file plus the log stream. -/
structure S where
  db : DB
  log : List LogEntry
deriving DecidableEq

/-- A fresh state: schema created, no rows, no log output. -/
def freshS : S := { db := { tableExists := true, rows := [] }, log := [] }

/-- Environment outcome of one SQLite interaction: `connect` succeeds and the
statement runs, `connect` itself raises (e.g. the database file cannot be
opened), or `connect` succeeds but `execute`/`commit` raises (e.g. disk
full). -/
inductive SqlOutcome where
  | ok
  | connectFail
  | execFail
deriving DecidableEq

/-- `create_database` (src/gematria.py:63-79).  `sqlite3.connect` runs BEFORE
the `try`, so a `connectFail` propagates out uncaught (`Except.error`); an
`execFail` is caught and logged; on success `CREATE TABLE IF NOT EXISTS`
creates the table only when absent and touches no rows. -/
def create_database (oc : SqlOutcome) (st : S) : Except Unit S :=
  match oc with
  | .connectFail => .error ()
  | .execFail => .ok { st with log := st.log ++ [.dbCreateError] }
  | .ok => .ok { st with db := { st.db with tableExists := true } }

/-- `insert_word` (src/gematria.py:81-95).  The whole body is inside
`try/except/finally`.  On `connectFail` the `except` clause logs the error,
but the `finally` clause then evaluates `conn.close()` with `conn` unbound,
raising `NameError`: the returned flag `true` records that an exception
escaped.  On `execFail`, or when the `words` table does not exist (SQLite
raises "no such table"), the error is caught, logged, and the connection is
closed normally.  On success, `INSERT OR IGNORE` appends a row only when no
row with this word exists. -/
def insert_word (oc : SqlOutcome) (word : List Nat)
    (simple_value hebrew_value english_value : Int) (st : S) : S × Bool :=
  match oc with
  | .connectFail => ({ st with log := st.log ++ [.insertError word] }, true)
  | .execFail => ({ st with log := st.log ++ [.insertError word] }, false)
  | .ok =>
    if st.db.tableExists then
      if st.db.rows.any (fun r => r.word == word) then (st, false)
      else ({ st with db := { st.db with rows := st.db.rows ++
        [{ word := word, simple_gematria := simple_value,
           hebrew_gematria := hebrew_value,
           english_gematria := english_value }] } }, false)
    else ({ st with log := st.log ++ [.insertError word] }, false)

/-- The per-word loop of `process_file` (src/gematria.py:103-108): score the
word three ways, insert, then log the info line.  `oc` gives the
environment's SQLite outcome for each word.  If a word's insert raises (the
`NameError` path), the exception propagates and the remaining words are never
attempted: the flag `true` records the escaped exception. -/
def process_words (oc : List Nat → SqlOutcome) : List (List Nat) → S → S × Bool
  | [], st => (st, false)
  | w :: ws, st =>
    let simple_value := calculate_gematria w
    let hebrew_value := calculate_hebrew_gematria w
    let english_value := calculate_english_gematria w
    match insert_word (oc w) w simple_value hebrew_value english_value st with
    | (st1, true) => (st1, true)
    | (st1, false) =>
      process_words oc ws { st1 with log := st1.log ++
        [.processed w simple_value hebrew_value english_value] }

/-- Environment outcome of the format-specific read step of `extract_text`. -/
inductive ReadOutcome where
  | ok (text : List Nat)
  | raises
deriving DecidableEq

/-- `extract_text` (src/gematria.py:13-32): dispatch on the lowercased file
extension; an unsupported extension logs a warning and leaves `text` empty;
a raising read step is caught, logged, and leaves `text` empty. -/
def extract_text (ext : List Nat) (rd : ReadOutcome) (st : S) : List Nat × S :=
  if pyLower ext == str ".csv" || pyLower ext == str ".txt" then
    match rd with
    | .ok t => (t, st)
    | .raises => ([], { st with log := st.log ++ [.extractionError] })
  else ([], { st with log := st.log ++ [.unsupportedFormat] })

/-- `process_file` (src/gematria.py:97-108): extract the text, build the
deduplicated token set, then run the per-word loop. -/
def process_file (ext : List Nat) (rd : ReadOutcome)
    (oc : List Nat → SqlOutcome) (st : S) : S × Bool :=
  let (text, st1) := extract_text ext rd st
  process_words oc (tokenize text) st1

theorem pySplitAux_tokens (s : List Nat) :
    ∀ acc : List Nat, (∀ c ∈ acc, pyIsSpace c = false) →
      ∀ w ∈ pySplitAux s acc, w ≠ [] ∧ ∀ c ∈ w, pyIsSpace c = false := by
  induction s with
  | nil =>
    intro acc hacc w hw
    unfold pySplitAux at hw
    by_cases h : acc.isEmpty = true
    · simp [h] at hw
    · rw [if_neg h, List.mem_singleton] at hw
      subst hw
      refine ⟨?_, fun c hc => hacc c (List.mem_reverse.mp hc)⟩
      simp only [List.isEmpty_iff] at h
      simpa using h
  | cons c cs ih =>
    intro acc hacc w hw
    unfold pySplitAux at hw
    by_cases hsp : pyIsSpace c = true
    · rw [if_pos hsp] at hw
      by_cases h : acc.isEmpty = true
      · rw [if_pos h] at hw
        exact ih [] (by simp) w hw
      · rw [if_neg h] at hw
        rcases List.mem_cons.mp hw with hw | hw
        · subst hw
          refine ⟨?_, fun d hd => hacc d (List.mem_reverse.mp hd)⟩
          simp only [List.isEmpty_iff] at h
          simpa using h
        · exact ih [] (by simp) w hw
    · rw [if_neg hsp] at hw
      refine ih (c :: acc) ?_ w hw
      intro d hd
      rcases List.mem_cons.mp hd with hd | hd
      · subst hd
        exact Bool.not_eq_true _ ▸ Bool.of_not_eq_true hsp
      · exact hacc d hd

/-- C5: tokenization splits the text on whitespace (every token is nonempty
and whitespace-free), keeps exactly the tokens consisting entirely of
alphabetic characters, deduplicates by exact string, and on
`"Cat cat DOG 123 dog!"` yields exactly the token set
`{"Cat", "cat", "DOG"}`. -/
theorem c5_tokenize_correct :
    (∀ text : List Nat, (tokenize text).Nodup ∧
      (∀ w, w ∈ tokenize text ↔ w ∈ pySplit text ∧ pyStrIsAlpha w = true) ∧
      (∀ w ∈ pySplit text, w ≠ [] ∧ ∀ c ∈ w, pyIsSpace c = false)) ∧
    tokenize (str "Cat cat DOG 123 dog!") = [str "Cat", str "cat", str "DOG"] := by
  refine ⟨?_, by decide⟩
  intro text
  refine ⟨List.nodup_dedup _, ?_, fun w hw => pySplitAux_tokens text [] (by simp) w hw⟩
  intro w
  unfold tokenize
  rw [List.mem_dedup, List.mem_filter]

/-- Witness for C5: the tokens of a concrete text form a duplicate-free
list, and a concrete membership both ways. -/
theorem c5_tokenize_correct_witness :
    (tokenize (str "a a b")).Nodup ∧
    (str "a" ∈ tokenize (str "a a b") ↔
      str "a" ∈ pySplit (str "a a b") ∧ pyStrIsAlpha (str "a") = true) :=
  ⟨(c5_tokenize_correct.1 (str "a a b")).1,
   (c5_tokenize_correct.1 (str "a a b")).2.1 (str "a")⟩

/-- C3: store insertion is idempotent with first-write-wins semantics: with
the schema in place and the word not yet stored, inserting it twice (same or
differing values) raises nothing, the second call is a no-op on the whole
state, and exactly one record for the word remains, holding the first
insertion's values. -/
theorem c3_insert_first_write_wins :
    ∀ (st : S) (w : List Nat) (s1 h1 e1 s2 h2 e2 : Int),
      st.db.tableExists = true →
      (∀ r ∈ st.db.rows, r.word ≠ w) →
      (insert_word .ok w s1 h1 e1 st).2 = false ∧
      (insert_word .ok w s2 h2 e2 (insert_word .ok w s1 h1 e1 st).1).1
        = (insert_word .ok w s1 h1 e1 st).1 ∧
      (insert_word .ok w s2 h2 e2 (insert_word .ok w s1 h1 e1 st).1).2 = false ∧
      ((insert_word .ok w s2 h2 e2 (insert_word .ok w s1 h1 e1 st).1).1.db.rows.filter
          (fun r => r.word == w))
        = [{ word := w, simple_gematria := s1, hebrew_gematria := h1,
             english_gematria := e1 }] := by
  intro st w s1 h1 e1 s2 h2 e2 hT hr
  have hany : (st.db.rows.any fun r => r.word == w) = false := by
    rw [List.any_eq_false]
    intro r hrm
    simpa using hr r hrm
  have hfil : (st.db.rows.filter fun r => r.word == w) = [] := by
    rw [List.filter_eq_nil_iff]
    intro r hrm
    simpa using hr r hrm
  simp [insert_word, hT, hany, hfil, List.any_append, List.filter_append]

/-- Witness for C3 at a concrete word and value tuples. -/
theorem c3_insert_first_write_wins_witness :
    ((insert_word .ok (str "cat") 1 2 3
        (insert_word .ok (str "cat") 24 104 144 freshS).1).1.db.rows.filter
      (fun r => r.word == str "cat"))
      = [{ word := str "cat", simple_gematria := 24, hebrew_gematria := 104,
           english_gematria := 144 }] :=
  (c3_insert_first_write_wins freshS (str "cat") 24 104 144 1 2 3 rfl
    (by decide)).2.2.2

/-- C4: evaluating the code at the failing input the claim describes.  When
the backing storage cannot be opened (`sqlite3.connect` raises) while
processing the words `cat` and `dog`, the logged error for `cat` is followed
by the `NameError` from `insert_word`'s `finally` clause (`conn` is unbound):
the exception escapes (flag `true`), `dog` is never attempted, and no
`processed` line is logged.  Likewise `create_database` propagates a
`connect` failure because the call sits before its `try`.  This contradicts
the claim that every failure is caught and converted to a log record and that
processing continues with the remaining words. -/
theorem c4_connect_failure_kills_run :
    process_words (fun _ => SqlOutcome.connectFail) [str "cat", str "dog"] freshS
      = ({ db := { tableExists := true, rows := [] },
           log := [LogEntry.insertError (str "cat")] }, true) ∧
    create_database SqlOutcome.connectFail freshS = Except.error () :=
  ⟨by decide, rfl⟩

/-- C9: schema creation is safe to call on every run: when the table already
exists it is the identity on the whole state, and whenever it returns
normally the stored rows are unchanged (it never destroys existing data). -/
theorem c9_schema_creation_safe :
    (∀ st : S, st.db.tableExists = true → create_database .ok st = .ok st) ∧
    (∀ (oc : SqlOutcome) (st st' : S), create_database oc st = .ok st' →
      st'.db.rows = st.db.rows) := by
  constructor
  · intro st hT
    unfold create_database
    cases st with
    | mk db log =>
      cases db with
      | mk t rows =>
        simp only at hT
        subst hT
        rfl
  · intro oc st st' h
    cases oc with
    | connectFail => exact Except.noConfusion h
    | execFail =>
      simp only [create_database, Except.ok.injEq] at h
      subst h
      rfl
    | ok =>
      simp only [create_database, Except.ok.injEq] at h
      subst h
      rfl

/-- Witness for C9: re-running schema creation on a store that already holds
a record changes nothing. -/
theorem c9_schema_creation_safe_witness :
    create_database .ok
      { db := { tableExists := true,
                rows := [{ word := str "cat", simple_gematria := 24,
                           hebrew_gematria := 104, english_gematria := 144 }] },
        log := [] }
      = .ok { db := { tableExists := true,
                      rows := [{ word := str "cat", simple_gematria := 24,
                                 hebrew_gematria := 104, english_gematria := 144 }] },
              log := [] } :=
  c9_schema_creation_safe.1 _ rfl

/-- C7: when the extractor cannot produce text (unsupported extension, or the
format-specific read step raises), it yields an empty text blob; tokenizing
the empty blob yields zero words, so the per-word loop persists nothing,
changes nothing, and raises nothing. -/
theorem c7_extractor_failure_graceful :
    ∀ (ext : List Nat) (rd : ReadOutcome) (st : S) (oc : List Nat → SqlOutcome),
      ((pyLower ext ≠ str ".csv" ∧ pyLower ext ≠ str ".txt") ∨ rd = ReadOutcome.raises) →
      (extract_text ext rd st).1 = [] ∧
      (extract_text ext rd st).2.db = st.db ∧
      tokenize (extract_text ext rd st).1 = [] ∧
      process_words oc (tokenize (extract_text ext rd st).1) (extract_text ext rd st).2
        = ((extract_text ext rd st).2, false) := by
  intro ext rd st oc h
  have htok : tokenize ([] : List Nat) = [] := by decide
  have hpw : ∀ st' : S, process_words oc [] st' = (st', false) := fun _ => rfl
  rcases h with ⟨h1, h2⟩ | h
  · have hc : (pyLower ext == str ".csv" || pyLower ext == str ".txt") = false := by
      simp [beq_eq_false_iff_ne, h1, h2]
    simp [extract_text, hc, htok, hpw]
  · subst h
    by_cases hc : (pyLower ext == str ".csv" || pyLower ext == str ".txt") = true
    · simp [extract_text, hc, htok, hpw]
    · simp [extract_text, hc, htok, hpw]

/-- Witness for C7 at a concrete unsupported extension. -/
theorem c7_extractor_failure_graceful_witness :
    (extract_text (str ".pdf") (ReadOutcome.ok (str "cat")) freshS).1 = [] :=
  (c7_extractor_failure_graceful (str ".pdf") (ReadOutcome.ok (str "cat")) freshS
    (fun _ => SqlOutcome.ok) (Or.inl ⟨by decide, by decide⟩)).1

/-- C8: two tokens that differ only in letter case receive equal simple,
Hebrew and English scores (all three scorers lowercase before lookup), and
the pipeline persists each under its original casing, producing two distinct
records with equal scores. -/
theorem c8_case_insensitive_scoring_distinct_keys :
    ∀ w1 w2 : List Nat, pyLower w1 = pyLower w2 → w1 ≠ w2 →
      calculate_gematria w1 = calculate_gematria w2 ∧
      calculate_hebrew_gematria w1 = calculate_hebrew_gematria w2 ∧
      calculate_english_gematria w1 = calculate_english_gematria w2 ∧
      (process_words (fun _ => SqlOutcome.ok) [w1, w2] freshS).1.db.rows
        = [{ word := w1, simple_gematria := calculate_gematria w1,
             hebrew_gematria := calculate_hebrew_gematria w1,
             english_gematria := calculate_english_gematria w1 },
           { word := w2, simple_gematria := calculate_gematria w1,
             hebrew_gematria := calculate_hebrew_gematria w1,
             english_gematria := calculate_english_gematria w1 }] := by
  intro w1 w2 hl hne
  have hs : calculate_gematria w1 = calculate_gematria w2 := by
    unfold calculate_gematria
    rw [hl]
  have hh : calculate_hebrew_gematria w1 = calculate_hebrew_gematria w2 := by
    unfold calculate_hebrew_gematria
    rw [hl]
  have he : calculate_english_gematria w1 = calculate_english_gematria w2 := by
    unfold calculate_english_gematria
    rw [hl]
  have hbeq : (w1 == w2) = false := beq_eq_false_iff_ne.mpr hne
  refine ⟨hs, hh, he, ?_⟩
  simp [process_words, insert_word, freshS, hbeq, hs, hh, he]

/-- Witness for C8 at the concrete tokens `Cat` and `cat`. -/
theorem c8_case_insensitive_scoring_distinct_keys_witness :
    calculate_gematria (str "Cat") = calculate_gematria (str "cat") :=
  (c8_case_insensitive_scoring_distinct_keys (str "Cat") (str "cat")
    (by decide) (by decide)).1
